import Mathlib

/-!
Verification of the environment / call-dispatch core of `mathscript`
(src/mathscript/symtable.cpp), as a shallow embedding.

A `SymTable` is a scope node: a variable map, a function map, and a
parent link (`none` at the root).  Maps are modelled as association
lists with unique-key update (`insertA`) and first-match lookup
(`lookupA`), matching `std::map::operator[]` / `contains` / `at`.

The collaborators that symtable.cpp consumes but does not define
(value handles `ObjPtr`, the `Result` tag, native callables, and the
statement-block `eval`) are modelled from the spec: values are opaque
handles (`Nat`), a native callable is an identifier interpreted by a
`NativeOracle`, and a statement block is an identifier interpreted by an
`EvalOracle` mapping an environment to the sequence of values the block
evaluates to.
-/

/-- Modelled from the spec: a value handle with shared ownership; the content
is opaque to this core, so a handle is just an identifier. -/
abbrev ObjPtr := Nat

/-- Modelled from the spec: `Result` is a tagged value holding either a single
value (`Result::Type::kSingle`) or a sequence of values produced by evaluating
a block. -/
inductive Result where
  | single (v : ObjPtr)
  | seq (vs : List ObjPtr)
deriving DecidableEq, Repr

/-- An entry of a `functions` map: `std::variant<Function, FunctionDef>`.
`native fid` is the variant at index 0 (a host callable, identified by `fid`);
`userDef params body` is `FunctionDef` (parameter-name list plus a
statement-block identifier interpreted by the evaluation oracle). -/
inductive FuncEntry where
  | native (fid : Nat)
  | userDef (params : List String) (body : Nat)
deriving DecidableEq, Repr

/-- First-match association-list lookup: `map.contains(k) ? map.at(k) : none`. -/
def lookupA {α : Type} : List (String × α) → String → Option α
  | [], _ => none
  | (k', v') :: rest, k => if k' = k then some v' else lookupA rest k

/-- Association-list update with unique keys: `map[k] = v` (overwrite the
existing entry for `k`, or append a new one). -/
def insertA {α : Type} : List (String × α) → String → α → List (String × α)
  | [], k, v => [(k, v)]
  | (k', v') :: rest, k, v =>
      if k' = k then (k, v) :: rest else (k', v') :: insertA rest k v

/-- The `SymTable` scope node of symtable.cpp: variable bindings, function
definitions and a parent link.  `root` is the node with `parent == nullptr`;
`child` carries its parent, so every chain is finite and ends at a root. -/
inductive SymTable where
  | root (vars : List (String × ObjPtr)) (funcs : List (String × FuncEntry))
  | child (vars : List (String × ObjPtr)) (funcs : List (String × FuncEntry))
      (parent : SymTable)
deriving DecidableEq, Repr

namespace SymTable

/-- The `variables` field (named `vars` because `variables` is reserved in Lean). -/
def vars : SymTable → List (String × ObjPtr)
  | .root v _ => v
  | .child v _ _ => v

/-- The `functions` field. -/
def funcs : SymTable → List (String × FuncEntry)
  | .root _ f => f
  | .child _ f _ => f

/-- The `parent` pointer (`none` models `nullptr`). -/
def parent : SymTable → Option SymTable
  | .root _ _ => none
  | .child _ _ p => some p

/-- Chain length down to the root. -/
def depth : SymTable → Nat
  | .root _ _ => 0
  | .child _ _ p => p.depth + 1

end SymTable

/-- Outcome of a variable lookup: the binding found, the thrown
`UndeclaredVariableError`, or exhaustion of the fuel bounding the number of
loop iterations (a lookup that is still running after every finite number of
iterations does not terminate). -/
inductive FindResult where
  | found (v : ObjPtr)
  | undeclared
  | timeout
deriving DecidableEq, Repr

/-- The body of `SymTable::FindVariable`'s `while` loop, translated literally
and bounded by fuel.  `node` is the loop variable (`none` models the null
pointer that exits the loop into `throw UndeclaredVariableError`).  Note the
loop update is `node = this->parent` — the receiver's parent, exactly as in
the source — not `node = node->parent`. -/
def FindVariableLoop (this : SymTable) (name : String) :
    Nat → Option SymTable → FindResult
  | 0, _ => .timeout
  | _ + 1, none => .undeclared
  | fuel + 1, some node =>
    match lookupA node.vars name with
    | some v => .found v
    | none => FindVariableLoop this name fuel this.parent

/-- `SymTable::FindVariable` (the iterative lookup), with `fuel` bounding the
number of loop iterations. -/
def FindVariable (this : SymTable) (name : String) (fuel : Nat) : FindResult :=
  FindVariableLoop this name fuel (some this)

/-- `SymTable::RecFindVariable`: check the node's variable map; if absent and
the parent is null, throw `UndeclaredVariableError`; otherwise recurse into
the parent. -/
def RecFindVariable : SymTable → String → FindResult
  | .root vars _, name =>
    match lookupA vars name with
    | some v => .found v
    | none => .undeclared
  | .child vars _ p, name =>
    match lookupA vars name with
    | some v => .found v
    | none => RecFindVariable p name

/-- `SymTable::AssignVariable`: `variables[name] = obj` on the current node
only; the parent chain and the function map are untouched. -/
def AssignVariable : SymTable → String → ObjPtr → SymTable
  | .root vars funcs, name, obj => .root (insertA vars name obj) funcs
  | .child vars funcs p, name, obj => .child (insertA vars name obj) funcs p

/-- `SymTable::CreateFunction`: `functions[name] = FunctionDef{statements, params}`
on the current node. -/
def CreateFunction (t : SymTable) (name : String) (params : List String)
    (body : Nat) : SymTable :=
  match t with
  | .root vars funcs => .root vars (insertA funcs name (.userDef params body))
  | .child vars funcs p => .child vars (insertA funcs name (.userDef params body)) p

/-- `SymTable::ConstructGlobalTable`: a fresh root with empty maps. -/
def ConstructGlobalTable : SymTable := .root [] []

/-- Modelled from the spec: a host-provided native callable, interpreted by an
oracle keyed by the identifier stored in the `functions` map. -/
abbrev NativeOracle := Nat → List ObjPtr → Result

/-- Modelled from the spec: the external evaluator's
`evaluate(environment) -> sequence of values` on a statement block, keyed by
the block identifier stored in a `FunctionDef`. -/
abbrev EvalOracle := Nat → SymTable → List ObjPtr

/-- The errors `ExecuteFunction` can throw.  `notDefined` is
`EvaluationError("function '<name>' not defined!")`; `arityMismatch` is
`EvaluationError("didn't get expected arguments")`; `emptyResult` is
`EvaluationError("function didn't return anything")`; `unexpectedStack` is the
post-loop `EvaluationError("did not expect to get here in execution stack")`;
`badVariant` is the `std::bad_variant_access` raised by
`std::get<FunctionDef>` on a native entry outside the root. -/
inductive EvalError where
  | notDefined (name : String)
  | arityMismatch
  | emptyResult
  | unexpectedStack
  | badVariant
deriving DecidableEq, Repr

/-- A dispatch either returns a `Result` or throws an `EvalError`. -/
inductive DispatchResult where
  | ok (r : Result)
  | err (e : EvalError)
deriving DecidableEq, Repr

/-- Outcome of a dispatch, instrumented with the call-frame ledger: `result`
is the returned `Result` or the thrown error; `allocated` counts executions of
`new SymTable` and `freed` counts executions of `delete` during the dispatch
(the external evaluator's own allocations are out of scope). -/
structure ExecOut where
  result : DispatchResult
  allocated : Nat
  freed : Nat
deriving DecidableEq, Repr

/-- The parameter-binding loop
`for (i = 0; i < params.size; i++) vars[params[i]] = args[i]`:
map assignments performed in ascending order into accumulator `acc`. -/
def bindParamsAux (acc : List (String × ObjPtr)) :
    List String → List ObjPtr → List (String × ObjPtr)
  | [], _ => acc
  | _ :: _, [] => acc
  | p :: ps, a :: as => bindParamsAux (insertA acc p a) ps as

/-- Parameter binding starting from the fresh node's empty variable map. -/
def bindParams (params : List String) (args : List ObjPtr) :
    List (String × ObjPtr) :=
  bindParamsAux [] params args

/-- The call-frame node as it is handed to the body evaluator: fresh maps,
parameters bound, and `newNode->parent = this` — the parent is the environment
the dispatch was invoked on (the call site). -/
def callFrame (callSite : SymTable) (params : List String)
    (args : List ObjPtr) : SymTable :=
  .child (bindParams params args) [] callSite

/-- The user-defined call block of `ExecuteFunction` / `RecExecuteFunction`
(identical in both): allocate `newNode` with `parent = this`, check arity,
bind parameters, evaluate the body, reject an empty result, delete the frame
and return the last value as a single-value `Result`.  The two `throw`
statements exit before the `delete`, so on those paths the ledger records the
allocation but no release. -/
def executeUserFunction (callSite : SymTable) (evalO : EvalOracle)
    (params : List String) (body : Nat) (args : List ObjPtr) : ExecOut :=
  if params.length ≠ args.length then
    { result := .err .arityMismatch, allocated := 1, freed := 0 }
  else
    match evalO body (callFrame callSite params args) with
    | [] => { result := .err .emptyResult, allocated := 1, freed := 0 }
    | v :: vs =>
      { result := .ok (.single ((v :: vs).getLast (List.cons_ne_nil v vs)))
        allocated := 1, freed := 1 }

/-- One iteration of `ExecuteFunction`'s `while (node != nullptr)` loop:
first the root-only block (native invocation, or
`throw EvaluationError("function not defined")` when the root's map lacks the
name), then the generic `functions.contains(name)` check performing the
user-defined call.  Returns `none` when the iteration falls through to
`node = node->parent`. -/
def loopIteration (this : SymTable) (natO : NativeOracle) (evalO : EvalOracle)
    (name : String) (args : List ObjPtr) (node : SymTable) : Option ExecOut :=
  let rootCheck : Option ExecOut :=
    match node.parent with
    | none =>
      match lookupA node.funcs name with
      | some (.native fid) =>
        some { result := .ok (natO fid args), allocated := 0, freed := 0 }
      | some (.userDef _ _) => none
      | none =>
        some { result := .err (.notDefined name), allocated := 0, freed := 0 }
    | some _ => none
  match rootCheck with
  | some out => some out
  | none =>
    match lookupA node.funcs name with
    | some (.native _) =>
      some { result := .err .badVariant, allocated := 0, freed := 0 }
    | some (.userDef params body) =>
      some (executeUserFunction this evalO params body args)
    | none => none

/-- The `while` loop of `SymTable::ExecuteFunction`, starting at `node`:
run an iteration; on fall-through advance to the parent, and when the parent
is null the loop exits into the post-loop
`throw EvaluationError("did not expect to get here in execution stack")`. -/
def ExecuteFunctionIter (this : SymTable) (natO : NativeOracle)
    (evalO : EvalOracle) (name : String) (args : List ObjPtr) :
    SymTable → ExecOut
  | .root nv nf =>
    match loopIteration this natO evalO name args (.root nv nf) with
    | some out => out
    | none => { result := .err .unexpectedStack, allocated := 0, freed := 0 }
  | .child nv nf p =>
    match loopIteration this natO evalO name args (.child nv nf p) with
    | some out => out
    | none => ExecuteFunctionIter this natO evalO name args p

/-- `SymTable::ExecuteFunction` (the iterative dispatcher): the loop starts at
`node = this`. -/
def ExecuteFunction (this : SymTable) (natO : NativeOracle)
    (evalO : EvalOracle) (name : String) (args : List ObjPtr) : ExecOut :=
  ExecuteFunctionIter this natO evalO name args this

/-- `SymTable::RecExecuteFunction` on node `node`, with receiver `this` fixed
along the recursion (the recursive call passes `*node.parent` but keeps the
same receiver, so `newNode->parent = this` always points at the environment
the dispatch started from). -/
def RecExecuteFunctionAux (this : SymTable) (natO : NativeOracle)
    (evalO : EvalOracle) (name : String) (args : List ObjPtr) :
    SymTable → ExecOut
  | .root _ nf =>
    match lookupA nf name with
    | some (.native fid) =>
      { result := .ok (natO fid args), allocated := 0, freed := 0 }
    | some (.userDef params body) => executeUserFunction this evalO params body args
    | none => { result := .err (.notDefined name), allocated := 0, freed := 0 }
  | .child _ nf p =>
    match lookupA nf name with
    | some (.native _) =>
      { result := .err .badVariant, allocated := 0, freed := 0 }
    | some (.userDef params body) => executeUserFunction this evalO params body args
    | none => RecExecuteFunctionAux this natO evalO name args p

/-- `SymTable::RecExecuteFunction` started on the receiver itself. -/
def RecExecuteFunction (this : SymTable) (natO : NativeOracle)
    (evalO : EvalOracle) (name : String) (args : List ObjPtr) : ExecOut :=
  RecExecuteFunctionAux this natO evalO name args this

/-- The spec-side resolution order (§4.2): scan from the call site outward and
return the first `functions` entry found for `name`, if any. -/
def findFuncEntry : SymTable → String → Option FuncEntry
  | .root _ nf, name => lookupA nf name
  | .child _ nf p, name =>
    match lookupA nf name with
    | some e => some e
    | none => findFuncEntry p name

/-- The spec invariant that only the global (root) environment's `functions`
map may contain `NativeFunction` entries. -/
def nativesOnlyAtRoot : SymTable → Bool
  | .root _ _ => true
  | .child _ nf p =>
    (nf.all fun e => match e.2 with | .native _ => false | .userDef _ _ => true)
      && nativesOnlyAtRoot p

/-! ### Association-list lemmas -/

theorem lookupA_insertA_self {α : Type} (l : List (String × α)) (k : String) (v : α) :
    lookupA (insertA l k v) k = some v := by
  induction l with
  | nil => simp [insertA, lookupA]
  | cons hd tl ih =>
    obtain ⟨k', v'⟩ := hd
    by_cases h : k' = k
    · simp [insertA, h, lookupA]
    · simp [insertA, h, lookupA, ih]

theorem lookupA_insertA_other {α : Type} (l : List (String × α)) (k k' : String)
    (v : α) (h : k' ≠ k) : lookupA (insertA l k v) k' = lookupA l k' := by
  induction l with
  | nil =>
    simp only [insertA, lookupA]
    rw [if_neg (Ne.symm h)]
  | cons hd tl ih =>
    obtain ⟨k₀, v₀⟩ := hd
    by_cases h0 : k₀ = k
    · subst h0
      simp only [insertA, if_pos rfl, lookupA]
      rw [if_neg (Ne.symm h), if_neg (Ne.symm h)]
    · simp only [insertA, if_neg h0, lookupA]
      by_cases h1 : k₀ = k'
      · rw [if_pos h1, if_pos h1]
      · rw [if_neg h1, if_neg h1, ih]

theorem lookupA_bindParamsAux_not_mem (ps : List String) :
    ∀ (as : List ObjPtr) (acc : List (String × ObjPtr)) (p : String), p ∉ ps →
      lookupA (bindParamsAux acc ps as) p = lookupA acc p := by
  induction ps with
  | nil => intro as acc p _; cases as <;> simp [bindParamsAux]
  | cons q qs ih =>
    intro as acc p hp
    cases as with
    | nil => simp [bindParamsAux]
    | cons a as' =>
      have hpq : p ≠ q := fun h => hp (h ▸ List.mem_cons_self q qs)
      have hpqs : p ∉ qs := fun h => hp (List.mem_cons_of_mem q h)
      simp only [bindParamsAux]
      rw [ih as' _ p hpqs, lookupA_insertA_other _ _ _ _ hpq]

theorem lookupA_bindParamsAux_get (ps : List String) :
    ∀ (as : List ObjPtr) (acc : List (String × ObjPtr)), ps.Nodup →
      ∀ (i : Nat) (hi : i < ps.length) (hi' : i < as.length),
        lookupA (bindParamsAux acc ps as) (ps.get ⟨i, hi⟩) = some (as.get ⟨i, hi'⟩) := by
  induction ps with
  | nil => intro as acc _ i hi; exact absurd hi (by simp)
  | cons q qs ih =>
    intro as acc hnd i hi hi'
    cases as with
    | nil => exact absurd hi' (by simp)
    | cons a as' =>
      rcases List.nodup_cons.mp hnd with ⟨hq, hqs⟩
      cases i with
      | zero =>
        simp only [bindParamsAux, List.get]
        rw [lookupA_bindParamsAux_not_mem qs as' _ q hq, lookupA_insertA_self]
      | succ j =>
        simp only [bindParamsAux, List.get]
        exact ih as' _ hqs j (by simpa using hi) (by simpa using hi')

/-! ### Single-step unfolding of the dispatch loop -/

theorem iter_child_advance (cs : SymTable) (natO : NativeOracle) (evalO : EvalOracle)
    (name : String) (args : List ObjPtr) (nv : List (String × ObjPtr))
    (nf : List (String × FuncEntry)) (p : SymTable)
    (hl : lookupA nf name = none) :
    ExecuteFunctionIter cs natO evalO name args (.child nv nf p) =
      ExecuteFunctionIter cs natO evalO name args p := by
  simp [ExecuteFunctionIter, loopIteration, SymTable.parent, SymTable.funcs, hl]

theorem iter_child_user (cs : SymTable) (natO : NativeOracle) (evalO : EvalOracle)
    (name : String) (args : List ObjPtr) (nv : List (String × ObjPtr))
    (nf : List (String × FuncEntry)) (p : SymTable)
    (params : List String) (body : Nat)
    (hl : lookupA nf name = some (.userDef params body)) :
    ExecuteFunctionIter cs natO evalO name args (.child nv nf p) =
      executeUserFunction cs evalO params body args := by
  simp [ExecuteFunctionIter, loopIteration, SymTable.parent, SymTable.funcs, hl]

theorem iter_child_native (cs : SymTable) (natO : NativeOracle) (evalO : EvalOracle)
    (name : String) (args : List ObjPtr) (nv : List (String × ObjPtr))
    (nf : List (String × FuncEntry)) (p : SymTable) (fid : Nat)
    (hl : lookupA nf name = some (.native fid)) :
    ExecuteFunctionIter cs natO evalO name args (.child nv nf p) =
      { result := .err .badVariant, allocated := 0, freed := 0 } := by
  simp [ExecuteFunctionIter, loopIteration, SymTable.parent, SymTable.funcs, hl]

theorem iter_root_user (cs : SymTable) (natO : NativeOracle) (evalO : EvalOracle)
    (name : String) (args : List ObjPtr) (nv : List (String × ObjPtr))
    (nf : List (String × FuncEntry)) (params : List String) (body : Nat)
    (hl : lookupA nf name = some (.userDef params body)) :
    ExecuteFunctionIter cs natO evalO name args (.root nv nf) =
      executeUserFunction cs evalO params body args := by
  simp [ExecuteFunctionIter, loopIteration, SymTable.parent, SymTable.funcs, hl]

theorem iter_root_native (cs : SymTable) (natO : NativeOracle) (evalO : EvalOracle)
    (name : String) (args : List ObjPtr) (nv : List (String × ObjPtr))
    (nf : List (String × FuncEntry)) (fid : Nat)
    (hl : lookupA nf name = some (.native fid)) :
    ExecuteFunctionIter cs natO evalO name args (.root nv nf) =
      { result := .ok (natO fid args), allocated := 0, freed := 0 } := by
  simp [ExecuteFunctionIter, loopIteration, SymTable.parent, SymTable.funcs, hl]

theorem iter_root_absent (cs : SymTable) (natO : NativeOracle) (evalO : EvalOracle)
    (name : String) (args : List ObjPtr) (nv : List (String × ObjPtr))
    (nf : List (String × FuncEntry))
    (hl : lookupA nf name = none) :
    ExecuteFunctionIter cs natO evalO name args (.root nv nf) =
      { result := .err (.notDefined name), allocated := 0, freed := 0 } := by
  simp [ExecuteFunctionIter, loopIteration, SymTable.parent, SymTable.funcs, hl]

/-! ### Dispatch characterized by the spec-side resolution order -/

theorem iter_user_hit (cs : SymTable) (natO : NativeOracle) (evalO : EvalOracle)
    (name : String) (args : List ObjPtr) :
    ∀ (t : SymTable) (params : List String) (body : Nat),
      findFuncEntry t name = some (.userDef params body) →
      ExecuteFunctionIter cs natO evalO name args t =
        executeUserFunction cs evalO params body args := by
  intro t
  induction t with
  | root nv nf =>
    intro params body h
    simp only [findFuncEntry] at h
    exact iter_root_user cs natO evalO name args nv nf params body h
  | child nv nf p ih =>
    intro params body h
    simp only [findFuncEntry] at h
    cases hl : lookupA nf name with
    | some e =>
      rw [hl] at h
      cases e with
      | native fid => simp at h
      | userDef ps b =>
        simp only [Option.some.injEq] at h
        cases h
        exact iter_child_user cs natO evalO name args nv nf p _ _ hl
    | none =>
      rw [hl] at h
      rw [iter_child_advance cs natO evalO name args nv nf p hl]
      exact ih params body h

theorem iter_native_hit (cs : SymTable) (natO : NativeOracle) (evalO : EvalOracle)
    (name : String) (args : List ObjPtr) :
    ∀ (t : SymTable) (fid : Nat), nativesOnlyAtRoot t = true →
      findFuncEntry t name = some (.native fid) →
      ExecuteFunctionIter cs natO evalO name args t =
        { result := .ok (natO fid args), allocated := 0, freed := 0 } := by
  intro t
  induction t with
  | root nv nf =>
    intro fid _ h
    simp only [findFuncEntry] at h
    exact iter_root_native cs natO evalO name args nv nf fid h
  | child nv nf p ih =>
    intro fid hinv h
    simp only [nativesOnlyAtRoot, Bool.and_eq_true, List.all_eq_true] at hinv
    simp only [findFuncEntry] at h
    cases hl : lookupA nf name with
    | some e =>
      rw [hl] at h
      cases e with
      | native f0 =>
        exfalso
        have hmem : (name, FuncEntry.native f0) ∈ nf := by
          clear h hinv
          induction nf with
          | nil => simp [lookupA] at hl
          | cons hd tl ihn =>
            obtain ⟨k0, v0⟩ := hd
            by_cases hk : k0 = name
            · subst hk
              simp [lookupA] at hl
              simp [hl]
            · simp only [lookupA, hk, if_false] at hl
              exact List.mem_cons_of_mem _ (ihn hl)
        have := hinv.1 (name, FuncEntry.native f0) hmem
        simp at this
      | userDef ps b => simp at h
    | none =>
      rw [hl] at h
      rw [iter_child_advance cs natO evalO name args nv nf p hl]
      exact ih fid hinv.2 h

theorem iter_absent (cs : SymTable) (natO : NativeOracle) (evalO : EvalOracle)
    (name : String) (args : List ObjPtr) :
    ∀ (t : SymTable), findFuncEntry t name = none →
      ExecuteFunctionIter cs natO evalO name args t =
        { result := .err (.notDefined name), allocated := 0, freed := 0 } := by
  intro t
  induction t with
  | root nv nf =>
    intro h
    simp only [findFuncEntry] at h
    exact iter_root_absent cs natO evalO name args nv nf h
  | child nv nf p ih =>
    intro h
    simp only [findFuncEntry] at h
    cases hl : lookupA nf name with
    | some e => rw [hl] at h; simp at h
    | none =>
      rw [hl] at h
      rw [iter_child_advance cs natO evalO name args nv nf p hl]
      exact ih h

/-! ### The user-defined call block -/

theorem executeUserFunction_arity_mismatch (cs : SymTable) (evalO : EvalOracle)
    (params : List String) (body : Nat) (args : List ObjPtr)
    (h : params.length ≠ args.length) :
    executeUserFunction cs evalO params body args =
      { result := .err .arityMismatch, allocated := 1, freed := 0 } := by
  simp [executeUserFunction, h]

theorem executeUserFunction_empty (cs : SymTable) (evalO : EvalOracle)
    (params : List String) (body : Nat) (args : List ObjPtr)
    (hlen : params.length = args.length)
    (h : evalO body (callFrame cs params args) = []) :
    executeUserFunction cs evalO params body args =
      { result := .err .emptyResult, allocated := 1, freed := 0 } := by
  simp only [executeUserFunction, hlen, ne_eq, not_true_eq_false, if_false]
  split
  · rfl
  · rename_i v vs heq
    rw [h] at heq
    exact absurd heq (by simp)

theorem executeUserFunction_last (cs : SymTable) (evalO : EvalOracle)
    (params : List String) (body : Nat) (args : List ObjPtr)
    (hlen : params.length = args.length)
    (v : ObjPtr) (vs : List ObjPtr)
    (h : evalO body (callFrame cs params args) = v :: vs) :
    executeUserFunction cs evalO params body args =
      { result := .ok (.single ((v :: vs).getLast (List.cons_ne_nil v vs)))
        allocated := 1, freed := 1 } := by
  simp only [executeUserFunction, hlen, ne_eq, not_true_eq_false, if_false]
  split
  · rename_i heq
    rw [h] at heq
    exact absurd heq (by simp)
  · rename_i w ws heq
    rw [h] at heq
    cases heq
    rfl

theorem executeUserFunction_result_cases (cs : SymTable) (evalO : EvalOracle)
    (params : List String) (body : Nat) (args : List ObjPtr) :
    (executeUserFunction cs evalO params body args).result = .err .arityMismatch ∨
    (executeUserFunction cs evalO params body args).result = .err .emptyResult ∨
    ∃ v, (executeUserFunction cs evalO params body args).result = .ok (.single v) := by
  unfold executeUserFunction
  split
  · left; rfl
  · split
    · right; left; rfl
    · right; right; exact ⟨_, rfl⟩

/-! ### The variable-lookup loop never advances past the receiver's parent -/

theorem findVariableLoop_stuck (t p : SymTable) (name : String)
    (hpar : t.parent = some p) (h2 : lookupA p.vars name = none) :
    ∀ fuel, FindVariableLoop t name fuel (some p) = .timeout := by
  intro fuel
  induction fuel with
  | zero => rfl
  | succ n ih =>
    simp only [FindVariableLoop, h2, hpar]
    exact ih

theorem findVariable_diverges (t p : SymTable) (name : String)
    (hpar : t.parent = some p)
    (h1 : lookupA t.vars name = none)
    (h2 : lookupA p.vars name = none) :
    ∀ fuel, FindVariable t name fuel = .timeout := by
  intro fuel
  cases fuel with
  | zero => rfl
  | succ n =>
    simp only [FindVariable, FindVariableLoop, h1, hpar]
    exact findVariableLoop_stuck t p name hpar h2 n

/-! ### The recursive dispatcher on a user hit -/

theorem rec_user_hit (cs : SymTable) (natO : NativeOracle) (evalO : EvalOracle)
    (name : String) (args : List ObjPtr) :
    ∀ (t : SymTable) (params : List String) (body : Nat),
      findFuncEntry t name = some (.userDef params body) →
      RecExecuteFunctionAux cs natO evalO name args t =
        executeUserFunction cs evalO params body args := by
  intro t
  induction t with
  | root nv nf =>
    intro params body h
    simp only [findFuncEntry] at h
    simp [RecExecuteFunctionAux, h]
  | child nv nf p ih =>
    intro params body h
    simp only [findFuncEntry] at h
    cases hl : lookupA nf name with
    | some e =>
      rw [hl] at h
      cases e with
      | native fid => simp at h
      | userDef ps b =>
        simp only [Option.some.injEq] at h
        cases h
        simp [RecExecuteFunctionAux, hl]
    | none =>
      rw [hl] at h
      simp only [RecExecuteFunctionAux, hl]
      exact ih params body h

/-! ### The post-loop throw is dead code -/

theorem iter_never_unexpectedStack (cs : SymTable) (natO : NativeOracle)
    (evalO : EvalOracle) (name : String) (args : List ObjPtr) :
    ∀ (t : SymTable),
      (ExecuteFunctionIter cs natO evalO name args t).result ≠ .err .unexpectedStack := by
  intro t
  induction t with
  | root nv nf =>
    cases hl : lookupA nf name with
    | some e =>
      cases e with
      | native fid => rw [iter_root_native cs natO evalO name args nv nf fid hl]; simp
      | userDef ps b =>
        rw [iter_root_user cs natO evalO name args nv nf ps b hl]
        rcases executeUserFunction_result_cases cs evalO ps b args with h | h | ⟨v, h⟩ <;>
          rw [h] <;> simp
    | none => rw [iter_root_absent cs natO evalO name args nv nf hl]; simp
  | child nv nf p ih =>
    cases hl : lookupA nf name with
    | some e =>
      cases e with
      | native fid => rw [iter_child_native cs natO evalO name args nv nf p fid hl]; simp
      | userDef ps b =>
        rw [iter_child_user cs natO evalO name args nv nf p ps b hl]
        rcases executeUserFunction_result_cases cs evalO ps b args with h | h | ⟨v, h⟩ <;>
          rw [h] <;> simp
    | none => rw [iter_child_advance cs natO evalO name args nv nf p hl]; exact ih

/-- `ExecuteFunction` on a chain whose nearest `functions` entry for `name` is
a user definition performs the user-defined call with the receiver as call
site. -/
theorem executeFunction_user_hit (cs : SymTable) (natO : NativeOracle)
    (evalO : EvalOracle) (name : String) (args : List ObjPtr)
    (params : List String) (body : Nat)
    (h : findFuncEntry cs name = some (.userDef params body)) :
    ExecuteFunction cs natO evalO name args =
      executeUserFunction cs evalO params body args :=
  iter_user_hit cs natO evalO name args cs params body h

/-! ### The claims -/

/-- Claim C1: `FindVariable` is claimed to search the current environment and
then each ancestor in order toward the root, return the first binding found,
and throw `UndeclaredVariableError` when no environment in the chain binds the
name.  The code refutes this: the loop advances with `node = this->parent`
instead of `node = node->parent`, so on a depth-two chain whose root alone
binds `x`, the iterative lookup re-inspects the receiver's parent forever — it
neither returns the root's binding nor throws — while the recursive twin
`RecFindVariable` finds the binding in that same chain. -/
theorem c1_findVariable_misses_grandparent :
    (∀ fuel,
      FindVariable (.child [] [] (.child [] [] (.root [("x", 5)] []))) "x" fuel =
        .timeout) ∧
    RecFindVariable (.child [] [] (.child [] [] (.root [("x", 5)] []))) "x" =
      .found 5 := by
  refine ⟨?_, by decide⟩
  exact findVariable_diverges (.child [] [] (.child [] [] (.root [("x", 5)] [])))
    (.child [] [] (.root [("x", 5)] [])) "x" rfl rfl rfl

/-- Claim C2: the iterative `FindVariable` and the recursive `RecFindVariable`
are claimed equivalent.  They are not: looking up a name bound nowhere from a
child of the root, the recursive path throws `UndeclaredVariableError` while
the iterative path loops forever (timeout at every fuel). -/
theorem c2_lookup_code_paths_disagree :
    RecFindVariable (.child [] [] (.root [] [])) "y" = .undeclared ∧
    ∀ fuel, FindVariable (.child [] [] (.root [] [])) "y" fuel = .timeout := by
  refine ⟨by decide, ?_⟩
  exact findVariable_diverges (.child [] [] (.root [] [])) (.root [] []) "y"
    rfl rfl rfl

/-- Claim C3: `FindVariable` is claimed to terminate on every finite
environment chain.  It does not: on a depth-two chain whose root binds `b`,
the lookup of `b` is still running after every finite number of loop
iterations, because the loop update `node = this->parent` keeps re-inspecting
the receiver's parent. -/
theorem c3_findVariable_nonterminating :
    ∀ fuel,
      FindVariable (.child [("a", 1)] [] (.child [] [] (.root [("b", 2)] []))) "b"
        fuel = .timeout := by
  exact findVariable_diverges
    (.child [("a", 1)] [] (.child [] [] (.root [("b", 2)] [])))
    (.child [] [] (.root [("b", 2)] [])) "b" rfl (by decide) rfl

/-- Claim C4: under the invariant that only the root carries native entries,
`ExecuteFunction` resolves `name` by the spec's outward scan `findFuncEntry`:
the nearest `UserFunction` registration wins (so it shadows a root native of
the same name), a native is invoked only when the scan's first hit is the
root's native entry, and when no `functions` map on the chain contains `name`
the dispatch throws `EvaluationError` naming the undefined function. -/
theorem c4_resolution_order (cs : SymTable) (natO : NativeOracle)
    (evalO : EvalOracle) (name : String) (args : List ObjPtr)
    (hinv : nativesOnlyAtRoot cs = true) :
    (∀ params body, findFuncEntry cs name = some (.userDef params body) →
        ExecuteFunction cs natO evalO name args =
          executeUserFunction cs evalO params body args) ∧
    (∀ fid, findFuncEntry cs name = some (.native fid) →
        ExecuteFunction cs natO evalO name args =
          { result := .ok (natO fid args), allocated := 0, freed := 0 }) ∧
    (findFuncEntry cs name = none →
        ExecuteFunction cs natO evalO name args =
          { result := .err (.notDefined name), allocated := 0, freed := 0 }) := by
  refine ⟨?_, ?_, ?_⟩
  · intro params body h
    exact iter_user_hit cs natO evalO name args cs params body h
  · intro fid h
    exact iter_native_hit cs natO evalO name args cs fid hinv h
  · intro h
    exact iter_absent cs natO evalO name args cs h

/-- Witness for C4: a user `f` in the call-site scope shadows the root's
native `f`. -/
theorem c4_resolution_order_witness :
    nativesOnlyAtRoot
        (.child [] [("f", .userDef ["x"] 0)] (.root [] [("f", .native 7)])) = true ∧
    ExecuteFunction (.child [] [("f", .userDef ["x"] 0)] (.root [] [("f", .native 7)]))
        (fun _ _ => .single 999) (fun _ _ => [1, 2, 3]) "f" [10] =
      executeUserFunction
        (.child [] [("f", .userDef ["x"] 0)] (.root [] [("f", .native 7)]))
        (fun _ _ => [1, 2, 3]) ["x"] 0 [10] := by
  refine ⟨by decide, ?_⟩
  exact (c4_resolution_order
    (.child [] [("f", .userDef ["x"] 0)] (.root [] [("f", .native 7)]))
    (fun _ _ => .single 999) (fun _ _ => [1, 2, 3]) "f" [10] (by decide)).1
    ["x"] 0 (by decide)

/-- Claim C5: a user-defined call whose body evaluates to an empty sequence
throws `EvaluationError`; otherwise the call returns the last value of the
sequence wrapped as a single-value `Result`. -/
theorem c5_user_call_returns_last (cs : SymTable) (natO : NativeOracle)
    (evalO : EvalOracle) (name : String) (args : List ObjPtr)
    (params : List String) (body : Nat)
    (hfind : findFuncEntry cs name = some (.userDef params body))
    (hlen : params.length = args.length) :
    (evalO body (callFrame cs params args) = [] →
        (ExecuteFunction cs natO evalO name args).result = .err .emptyResult) ∧
    (∀ v vs, evalO body (callFrame cs params args) = v :: vs →
        (ExecuteFunction cs natO evalO name args).result =
          .ok (.single ((v :: vs).getLast (List.cons_ne_nil v vs)))) := by
  rw [executeFunction_user_hit cs natO evalO name args params body hfind]
  constructor
  · intro h
    rw [executeUserFunction_empty cs evalO params body args hlen h]
  · intro v vs h
    rw [executeUserFunction_last cs evalO params body args hlen v vs h]

/-- Witness for C5: a body evaluating to `[1, 2, 3]` returns `3`. -/
theorem c5_user_call_returns_last_witness :
    findFuncEntry (.root [] [("f", .userDef ["x"] 7)]) "f" =
      some (.userDef ["x"] 7) ∧
    (ExecuteFunction (.root [] [("f", .userDef ["x"] 7)]) (fun _ _ => .single 0)
        (fun _ _ => [1, 2, 3]) "f" [10]).result = .ok (.single 3) := by
  refine ⟨by decide, ?_⟩
  have h := (c5_user_call_returns_last (.root [] [("f", .userDef ["x"] 7)])
    (fun _ _ => .single 0) (fun _ _ => [1, 2, 3]) "f" [10] ["x"] 7
    (by decide) (by decide)).2 1 [2, 3] rfl
  exact h.trans (by decide)

/-- Claim C6: the call-frame environment of every user-defined call has the
call-site environment (the receiver the dispatch was invoked on) as its
parent, for the iterative and the recursive dispatcher alike — wherever on the
chain the function definition was found. -/
theorem c6_frame_parent_is_call_site (cs : SymTable) (natO : NativeOracle)
    (evalO : EvalOracle) (name : String) (args : List ObjPtr)
    (params : List String) (body : Nat)
    (hfind : findFuncEntry cs name = some (.userDef params body)) :
    (callFrame cs params args).parent = some cs ∧
    ExecuteFunction cs natO evalO name args =
      executeUserFunction cs evalO params body args ∧
    RecExecuteFunction cs natO evalO name args =
      executeUserFunction cs evalO params body args :=
  ⟨rfl, executeFunction_user_hit cs natO evalO name args params body hfind,
    rec_user_hit cs natO evalO name args cs params body hfind⟩

/-- Witness for C6: `f` is declared at the root, the call site is a child; the
frame's parent is the child (call site), not the root (declaration site). -/
theorem c6_frame_parent_is_call_site_witness :
    findFuncEntry (.child [("y", 3)] [] (.root [] [("f", .userDef [] 4)])) "f" =
      some (.userDef [] 4) ∧
    (callFrame (.child [("y", 3)] [] (.root [] [("f", .userDef [] 4)])) [] []).parent =
      some (.child [("y", 3)] [] (.root [] [("f", .userDef [] 4)])) :=
  ⟨by decide, (c6_frame_parent_is_call_site
    (.child [("y", 3)] [] (.root [] [("f", .userDef [] 4)]))
    (fun _ _ => .single 0) (fun _ _ => [8]) "f" [] [] 4 (by decide)).1⟩

/-- Claim C7: a user-defined call throws `EvaluationError` on arity mismatch;
with exactly matching arity it passes the arity check (and then fails only if
the body's value sequence is empty), and the call frame binds each parameter
name to the corresponding argument value, in order. -/
theorem c7_arity_check_and_binding (cs : SymTable) (natO : NativeOracle)
    (evalO : EvalOracle) (name : String) (args : List ObjPtr)
    (params : List String) (body : Nat)
    (hfind : findFuncEntry cs name = some (.userDef params body)) :
    (params.length ≠ args.length →
        (ExecuteFunction cs natO evalO name args).result = .err .arityMismatch) ∧
    (params.length = args.length →
        (ExecuteFunction cs natO evalO name args).result ≠ .err .arityMismatch ∧
        ((∃ e, (ExecuteFunction cs natO evalO name args).result = .err e) ↔
            evalO body (callFrame cs params args) = []) ∧
        (params.Nodup →
            ∀ (i : Nat) (hi : i < params.length) (hi' : i < args.length),
              lookupA (callFrame cs params args).vars (params.get ⟨i, hi⟩) =
                some (args.get ⟨i, hi'⟩))) := by
  rw [executeFunction_user_hit cs natO evalO name args params body hfind]
  constructor
  · intro h
    rw [executeUserFunction_arity_mismatch cs evalO params body args h]
  · intro hlen
    refine ⟨?_, ⟨?_, ?_⟩, ?_⟩
    · cases heval : evalO body (callFrame cs params args) with
      | nil =>
        rw [executeUserFunction_empty cs evalO params body args hlen heval]
        simp
      | cons v vs =>
        rw [executeUserFunction_last cs evalO params body args hlen v vs heval]
        simp
    · rintro ⟨e, he⟩
      cases heval : evalO body (callFrame cs params args) with
      | nil => rfl
      | cons v vs =>
        rw [executeUserFunction_last cs evalO params body args hlen v vs heval] at he
        exact absurd he (by simp)
    · intro heval
      rw [executeUserFunction_empty cs evalO params body args hlen heval]
      exact ⟨.emptyResult, rfl⟩
    · intro hnd i hi hi'
      show lookupA (bindParams params args) (params.get ⟨i, hi⟩) =
        some (args.get ⟨i, hi'⟩)
      exact lookupA_bindParamsAux_get params args [] hnd i hi hi'

/-- Witness for C7: `g` declared with two parameters: one argument is an arity
error, two arguments pass the check. -/
theorem c7_arity_check_and_binding_witness :
    findFuncEntry (.root [] [("g", .userDef ["a", "b"] 4)]) "g" =
      some (.userDef ["a", "b"] 4) ∧
    (ExecuteFunction (.root [] [("g", .userDef ["a", "b"] 4)]) (fun _ _ => .single 0)
        (fun _ _ => [9]) "g" [1]).result = .err .arityMismatch ∧
    (ExecuteFunction (.root [] [("g", .userDef ["a", "b"] 4)]) (fun _ _ => .single 0)
        (fun _ _ => [9]) "g" [1, 2]).result ≠ .err .arityMismatch := by
  refine ⟨by decide, ?_, ?_⟩
  · exact (c7_arity_check_and_binding (.root [] [("g", .userDef ["a", "b"] 4)])
      (fun _ _ => .single 0) (fun _ _ => [9]) "g" [1] ["a", "b"] 4 (by decide)).1
      (by decide)
  · exact ((c7_arity_check_and_binding (.root [] [("g", .userDef ["a", "b"] 4)])
      (fun _ _ => .single 0) (fun _ _ => [9]) "g" [1, 2] ["a", "b"] 4 (by decide)).2
      (by decide)).1

/-- Claim C8: `AssignVariable` creates or overwrites the binding in the
current environment only and never mutates an ancestor: with `x` bound in the
parent `e1`, assigning `x` from a child binds `x` in the child, the parent
link still points at the unchanged `e1`, a lookup from `e1` still returns the
original value, and in general assignment leaves the parent chain and the
function map of every environment untouched. -/
theorem c8_assign_is_local_only (e1 : SymTable) (v2 : List (String × ObjPtr))
    (f2 : List (String × FuncEntry)) (x : String) (v w : ObjPtr)
    (hx : lookupA e1.vars x = some v) :
    (AssignVariable (.child v2 f2 e1) x w).parent = some e1 ∧
    lookupA (AssignVariable (.child v2 f2 e1) x w).vars x = some w ∧
    FindVariable e1 x 1 = .found v ∧
    RecFindVariable e1 x = .found v ∧
    (∀ (t : SymTable) (n : String) (o : ObjPtr),
        (AssignVariable t n o).parent = t.parent ∧
        (AssignVariable t n o).funcs = t.funcs) := by
  refine ⟨rfl, ?_, ?_, ?_, ?_⟩
  · show lookupA (insertA v2 x w) x = some w
    exact lookupA_insertA_self v2 x w
  · show FindVariableLoop e1 x 1 (some e1) = .found v
    simp [FindVariableLoop, hx]
  · cases e1 with
    | root nv nf =>
      simp only [SymTable.vars] at hx
      simp [RecFindVariable, hx]
    | child nv nf p =>
      simp only [SymTable.vars] at hx
      simp [RecFindVariable, hx]
  · intro t n o
    cases t <;> exact ⟨rfl, rfl⟩

/-- Witness for C8 at a concrete parent binding. -/
theorem c8_assign_is_local_only_witness :
    lookupA (SymTable.root [("x", 5)] []).vars "x" = some 5 ∧
    (AssignVariable (.child [] [] (.root [("x", 5)] [])) "x" 7).parent =
      some (.root [("x", 5)] []) ∧
    lookupA (AssignVariable (.child [] [] (.root [("x", 5)] [])) "x" 7).vars "x" =
      some 7 ∧
    FindVariable (.root [("x", 5)] []) "x" 1 = .found 5 := by
  have h := c8_assign_is_local_only (.root [("x", 5)] []) [] [] "x" 5 7 (by decide)
  exact ⟨by decide, h.1, h.2.1, h.2.2.1⟩

/-- Claim C9: the claim says the call-frame environment is released exactly
once on every exit path of a user-defined call, including the arity-mismatch
and empty-body error paths.  The code refutes this: both `throw` statements
execute before the `delete newNode`, so on those two paths the frame is
allocated (`allocated = 1`) and never freed (`freed = 0`); only the successful
path releases it. -/
theorem c9_frame_leaked_on_error_paths :
    ExecuteFunction (.root [] [("f", .userDef ["p"] 0)]) (fun _ _ => .single 0)
        (fun _ _ => [1]) "f" [] =
      { result := .err .arityMismatch, allocated := 1, freed := 0 } ∧
    ExecuteFunction (.root [] [("g", .userDef [] 1)]) (fun _ _ => .single 0)
        (fun _ _ => []) "g" [] =
      { result := .err .emptyResult, allocated := 1, freed := 0 } ∧
    ExecuteFunction (.root [] [("k", .userDef [] 2)]) (fun _ _ => .single 0)
        (fun _ _ => [6]) "k" [] =
      { result := .ok (.single 6), allocated := 1, freed := 1 } :=
  ⟨by decide, by decide, by decide⟩

/-- Claim C10: the final
`throw EvaluationError("did not expect to get here in execution stack")` after
the scan loop of `ExecuteFunction` is unreachable: on every finite chain the
dispatch returns a result or throws one of the documented errors at or before
the root, and never steps past the root. -/
theorem c10_post_loop_throw_dead (cs : SymTable) (natO : NativeOracle)
    (evalO : EvalOracle) (name : String) (args : List ObjPtr) :
    (ExecuteFunction cs natO evalO name args).result ≠ .err .unexpectedStack :=
  iter_never_unexpectedStack cs natO evalO name args cs
